import Mathlib

/-!
Verification of the SkinBotPeru dashboard normalization/merge core
(`src/pages/dashboard.py`, `src/main.py`).

The Python code is shallowly embedded: JSON values become the inductive
`JVal` (numeric JSON payloads in this app are integers, so the numeric
case is `jint`), Python dicts become association lists, Python exceptions
become `Except`, the `requests` results become the inductive `HttpResult`,
calendar dates become a `PyDate` structure with CPython's proleptic
Gregorian ordinal, and the pandas outer-merge pipeline becomes explicit
list functions.  Python float division (only used for the analysis rate)
is modelled exactly over `ℚ`.
-/

/-- A decoded JSON value as manipulated by the dashboard page. -/
inductive JVal where
  | null : JVal
  | jbool : Bool → JVal
  | jint : Int → JVal
  | jstr : String → JVal
  | jarr : List JVal → JVal
  | jobj : List (String × JVal) → JVal
deriving Repr

/-- Python `val == "Error"` (comparison against the string sentinel). -/
def isErrorSentinel : JVal → Bool
  | JVal.jstr s => s = "Error"
  | _ => false

/-- Python `val is None`. -/
def isNullVal : JVal → Bool
  | JVal.null => true
  | _ => false

/-- Python `dict.get(key)` on a string-keyed dict modelled as an association list. -/
def dictGet (data : List (String × JVal)) (key : String) : Option JVal :=
  match data with
  | [] => none
  | (k, v) :: rest => if k = key then some v else dictGet rest key

/-- Whether a dict has a given key (`key in data`). -/
def hasKey (data : List (String × JVal)) (key : String) : Bool :=
  match data with
  | [] => false
  | (k, _) :: rest => k = key || hasKey rest key

/-- Python digit-run grammar after the first digit: `(["_"] digit)*`
(single underscores allowed only between digits). -/
def pyDigitsRest : List Char → Bool
  | [] => true
  | '_' :: c :: rest => c.isDigit && pyDigitsRest rest
  | ['_'] => false
  | c :: rest => c.isDigit && pyDigitsRest rest

/-- Python `digitpart ::= digit (["_"] digit)*`. -/
def pyDigits : List Char → Bool
  | [] => false
  | c :: rest => c.isDigit && pyDigitsRest rest

/-- Numeric value of a digit run, skipping the underscores. -/
def digitsVal (cs : List Char) : Int :=
  cs.foldl (fun acc c => if c = '_' then acc else acc * 10 + ((c.toNat : Int) - 48)) 0

/-- CPython `int(s)` on a string: strip whitespace, optional sign, digit run
with optional single underscores; `none` models the `ValueError`. -/
def pyIntOfString (s : String) : Option Int :=
  let cs := ((s.toList.dropWhile Char.isWhitespace).reverse.dropWhile
    Char.isWhitespace).reverse
  match cs with
  | '+' :: rest => if pyDigits rest then some (digitsVal rest) else none
  | '-' :: rest => if pyDigits rest then some (-(digitsVal rest)) else none
  | _ => if pyDigits cs then some (digitsVal cs) else none

/-- CPython `int(val)` on a JSON value: ints pass through, bools coerce to
0/1, strings are parsed; `None`, lists and dicts raise (`none`). -/
def coerceInt : JVal → Option Int
  | JVal.jint n => some n
  | JVal.jbool b => some (if b then 1 else 0)
  | JVal.jstr s => pyIntOfString s
  | _ => none

/-- `safe_get` from `dashboard.py` lines 22-30: `val = data.get(key, default)`;
return `default` when `val == "Error"` or `val is None`; otherwise `int(val)`,
falling back to `default` on `ValueError`/`TypeError`. -/
def safe_get (data : List (String × JVal)) (key : String) (default : JVal) : JVal :=
  let val := (dictGet data key).getD default
  if isErrorSentinel val || isNullVal val then default
  else
    match coerceInt val with
    | some n => JVal.jint n
    | none => default

/-- The integer carried by `safe_get` when the call site uses an integer
default (as the KPI arithmetic at lines 172-185 does). -/
def safe_get_int (data : List (String × JVal)) (key : String) (default : Int) : Int :=
  match safe_get data key (JVal.jint default) with
  | JVal.jint n => n
  | _ => default

/-- Line 185: `(total_analyses / total_images * 100) if total_images > 0 else 0`;
Python float division modelled exactly over `ℚ`. -/
def analysis_rate (total_analyses total_images : Int) : ℚ :=
  if 0 < total_images then (total_analyses : ℚ) / (total_images : ℚ) * 100 else 0

/-- The `:.1f` rendering at line 187: the value times 10 is rounded to an
integer and printed with the final digit behind the decimal point. -/
def formatRate1 (q : ℚ) : String :=
  let n : Int := round (q * 10)
  (if n < 0 then "-" else "") ++ toString (n.natAbs / 10) ++ "." ++
    String.mk [Nat.digitChar (n.natAbs % 10)]

/-- Number of characters after the last `.` of a rendered number. -/
def decimalDigits (s : String) : Nat :=
  (s.data.reverse.takeWhile (fun c => c != '.')).length

/-- Python `item[key]`: the value, or a `KeyError` when the key is absent. -/
def getItem (item : List (String × JVal)) (key : String) : Except String JVal :=
  match dictGet item key with
  | some v => Except.ok v
  | none => Except.error "KeyError"

/-- Python `item[key] = v` on a dict: replace in place, append when new. -/
def setItem (item : List (String × JVal)) (key : String) (v : JVal) :
    List (String × JVal) :=
  match item with
  | [] => [(key, v)]
  | (k, w) :: rest => if k = key then (k, v) :: rest else (k, w) :: setItem rest key v

/-- One iteration of the relabel loops (lines 199-200 and 219-220):
`if item["_id"] is None: item["_id"] = label`. -/
def relabelItem (label : String) (item : List (String × JVal)) :
    Except String (List (String × JVal)) :=
  match getItem item "_id" with
  | Except.error e => Except.error e
  | Except.ok v =>
    if isNullVal v then Except.ok (setItem item "_id" (JVal.jstr label))
    else Except.ok item

/-- The whole relabel loop over a distribution list; an item without the
`_id` key raises `KeyError` (caught by the chart-level `try`). -/
def relabelDist (label : String) :
    List (List (String × JVal)) → Except String (List (List (String × JVal)))
  | [] => Except.ok []
  | item :: rest =>
    match relabelItem label item with
    | Except.error e => Except.error e
    | Except.ok item2 =>
      match relabelDist label rest with
      | Except.error e => Except.error e
      | Except.ok rest2 => Except.ok (item2 :: rest2)

/-- Outcome of one `requests.get` call: a raised `Timeout`/`RequestException`
(with its rendered message), or a response with a status code, the decoded
JSON body (`none` when `.json()` raises `JSONDecodeError`) and raw text. -/
inductive HttpResult where
  | exn (msg : String)
  | resp (status : Nat) (body : Option JVal) (text : String)

/-- The three variables left behind by the fetch block (lines 78-150). -/
structure FetchState where
  stats : Option JVal
  activity : Option JVal
  error_message : Option String

/-- Lines 117-126: store the decoded stats payload, or record an error
message (which embeds the raw response text). -/
def processStats (status : Nat) (body : Option JVal) (text : String) :
    Option JVal × Option String :=
  if status = 200 then
    match body with
    | some j => (some j, none)
    | none =>
      (none, some ("Failed to parse statistics JSON response\nRaw response: " ++ text))
  else (none, some ("Error fetching statistics: " ++ toString status ++ " - " ++ text))

/-- Lines 129-142: same for the activity payload. -/
def processActivity (status : Nat) (body : Option JVal) (text : String) :
    Option JVal × Option String :=
  if status = 200 then
    match body with
    | some j => (some j, none)
    | none =>
      (none, some ("Failed to parse activity JSON response\nRaw response: " ++ text))
  else (none, some ("Error fetching activity data: " ++ toString status ++ " - " ++ text))

/-- Lines 136 and 141: `f"{error_message}\n{activity_error}" if error_message
else activity_error`. -/
def combineErrors : Option String → Option String → Option String
  | some e1, some e2 => some (e1 ++ "\n" ++ e2)
  | some e1, none => some e1
  | none, some e2 => some e2
  | none, none => none

/-- The whole `try` block (lines 82-150).  Both GETs are issued inside one
`try`: an exception from the stats call skips the activity call, and an
exception from the activity call skips the processing of the stats response,
so in either case both `stats` and `activity_data` remain `None`. -/
def fetchBlock (rs ra : HttpResult) : FetchState :=
  match rs with
  | HttpResult.exn m => ⟨none, none, some m⟩
  | HttpResult.resp ss sb stext =>
    match ra with
    | HttpResult.exn m => ⟨none, none, some m⟩
    | HttpResult.resp sa ab atext =>
      let ps := processStats ss sb stext
      let pa := processActivity sa ab atext
      ⟨ps.1, pa.1, combineErrors ps.2 pa.2⟩

/-- Python truthiness, deciding `if stats:` and `if activity_data:`. -/
def truthy : JVal → Bool
  | JVal.null => false
  | JVal.jbool b => b
  | JVal.jint n => n != 0
  | JVal.jstr s => s != ""
  | JVal.jarr l => !l.isEmpty
  | JVal.jobj l => !l.isEmpty

/-- Whether a tab renders its data (lines 164 and 243). -/
def renderData : Option JVal → Bool
  | none => false
  | some v => truthy v

/-- A `datetime.date` value. -/
structure PyDate where
  year : Nat
  month : Nat
  day : Nat
deriving DecidableEq, Repr

/-- CPython `_is_leap`. -/
def isLeapYear (y : Nat) : Bool :=
  y % 4 == 0 && (y % 100 != 0 || y % 400 == 0)

/-- CPython `_days_before_month`: cumulative month lengths plus the leap day. -/
def daysBeforeMonth (y m : Nat) : Nat :=
  [0, 0, 31, 59, 90, 120, 151, 181, 212, 243, 273, 304, 334].getD m 0 +
    (if 2 < m && isLeapYear y then 1 else 0)

/-- CPython `_days_before_year`. -/
def daysBeforeYear (year : Nat) : Nat :=
  let y := year - 1
  y * 365 + y / 4 + y / 400 - y / 100

/-- CPython `date.toordinal`: day number in the proleptic Gregorian calendar;
date subtraction yields the difference of ordinals as a day count. -/
def toOrdinal (d : PyDate) : Nat :=
  daysBeforeYear d.year + daysBeforeMonth d.year d.month + d.day

/-- Python `date` comparison: lexicographic on (year, month, day). -/
def dateLt (a b : PyDate) : Prop :=
  a.year < b.year ∨
    (a.year = b.year ∧ (a.month < b.month ∨ (a.month = b.month ∧ a.day < b.day)))

instance (a b : PyDate) : Decidable (dateLt a b) := by
  unfold dateLt; infer_instance

/-- Lines 65-94: stop with a sidebar error when `start_date > end_date`
(no fetch is attempted); otherwise the activity query parameter is
`(end_date - start_date).days + 1`. -/
def processDateRange (s e : PyDate) : Option Int :=
  if dateLt e s then none
  else some ((toOrdinal e : Int) - (toOrdinal s : Int) + 1)

/-- Python `series.get`-style association lookup on date-keyed count rows
(dates already parsed by `pd.to_datetime`, represented by their ordinal). -/
def lookupKey : List (Int × Int) → Int → Option Int
  | [], _ => none
  | (k, v) :: rest, d => if k = d then some v else lookupKey rest d

/-- The left side of `pd.merge(uploads_df, analyses_df, on='_id', how='outer')`:
every left row, paired with each matching right row, or with a missing (`NaN`)
analyses entry when no right row matches. -/
def leftJoinRows : List (Int × Int) → List (Int × Int) → List (Int × Option Int × Option Int)
  | [], _ => []
  | p :: rest, r =>
    (match r.filter (fun q => q.1 = p.1) with
     | [] => [(p.1, some p.2, none)]
     | ms => ms.map (fun q => (p.1, some p.2, some q.2))) ++ leftJoinRows rest r

/-- The unmatched right rows appended by the outer merge, with a missing
(`NaN`) uploads entry. -/
def rightOnlyRows (l r : List (Int × Int)) : List (Int × Option Int × Option Int) :=
  (r.filter (fun q => lookupKey l q.1 = none)).map (fun q => (q.1, none, some q.2))

/-- All rows of the outer merge, before `fillna` and sorting. -/
def outerRows (l r : List (Int × Int)) : List (Int × Option Int × Option Int) :=
  leftJoinRows l r ++ rightOnlyRows l r

/-- `.fillna(0)` on one row. -/
def fillRow : Int × Option Int × Option Int → Int × Int × Int
  | (d, u, a) => (d, u.getD 0, a.getD 0)

/-- Row comparison used by `.sort_values` on the date column. -/
def rowLe (a b : Int × Int × Int) : Prop := a.1 ≤ b.1

instance : DecidableRel rowLe := fun a b => by
  unfold rowLe; infer_instance

instance : IsTotal (Int × Int × Int) rowLe :=
  ⟨fun a b => le_total a.1 b.1⟩

instance : IsTrans (Int × Int × Int) rowLe :=
  ⟨fun _ _ _ h1 h2 => le_trans h1 h2⟩

/-- `.sort_values('_id')` / `.sort_values('date')`: ascending sort on date. -/
def sortRows (rows : List (Int × Int × Int)) : List (Int × Int × Int) :=
  List.insertionSort rowLe rows

/-- Lines 261-270: the row content (date, uploads, analyses) of `activity_df`
in each of the four branches.  With both inputs non-empty: outer merge,
`fillna(0)`, sort; with one input empty: the other input sorted, the missing
count column set to the constant 0; with both empty: no rows. -/
def mergedRows (ups anas : List (Int × Int)) : List (Int × Int × Int) :=
  if ups ≠ [] ∧ anas ≠ [] then sortRows ((outerRows ups anas).map fillRow)
  else if ups ≠ [] then sortRows (ups.map (fun p => (p.1, p.2, 0)))
  else if anas ≠ [] then sortRows (anas.map (fun p => (p.1, 0, p.2)))
  else []

/-- Lines 253-270: the column names of `activity_df` in each branch; the
rename to `date`/`Uploads`/`Analyses` happens only in the two branches where
exactly one input series is non-empty. -/
def activityCols (ups anas : List (Int × Int)) : List String :=
  if ups ≠ [] ∧ anas ≠ [] then ["_id", "uploads", "analyses"]
  else if ups ≠ [] then ["date", "Uploads", "Analyses"]
  else if anas ≠ [] then ["date", "Analyses", "Uploads"]
  else ["date", "Uploads", "Analyses"]

/-- One of the two conditional trace additions (lines 275-288): a trace is
added only when its column is present, and adding one reads `df["date"]`
(a `KeyError` when that column is absent). -/
def addTrace (cols : List String) (colName traceName : String) :
    Except String (List String) :=
  if cols.contains colName then
    if cols.contains "date" then Except.ok [traceName] else Except.error "KeyError"
  else Except.ok []

/-- The names of the traces on the rendered activity chart (lines 273-295). -/
def chartTraces (cols : List String) : Except String (List String) :=
  match addTrace cols "Uploads" "Image Uploads" with
  | Except.error e => Except.error e
  | Except.ok t1 =>
    match addTrace cols "Analyses" "Analyses Performed" with
    | Except.error e => Except.error e
    | Except.ok t2 => Except.ok (t1 ++ t2)

/-- The value an item holds after one successful iteration of the relabel
loop (the `Except.ok` payload of `relabelItem`). -/
def relabelPure (label : String) (item : List (String × JVal)) :
    List (String × JVal) :=
  match dictGet item "_id" with
  | some v => if isNullVal v then setItem item "_id" (JVal.jstr label) else item
  | none => item

/-- The outer-merge rows after `fillna(0)`, written with association
lookups: every left row with the right count looked up (0 when absent),
then every unmatched right row with uploads 0.  Equal to
`(outerRows l r).map fillRow` when the right series has no duplicate date. -/
def mergedBothPre (l r : List (Int × Int)) : List (Int × Int × Int) :=
  l.map (fun p => (p.1, p.2, (lookupKey r p.1).getD 0)) ++
    (r.filter (fun q => lookupKey l q.1 = none)).map (fun q => (q.1, 0, q.2))

/- ------------------------------------------------------------------ -/
/- Theorems                                                            -/
/- ------------------------------------------------------------------ -/

theorem digitChar_ne_dot {k : Nat} (hk : k < 10) : Nat.digitChar k ≠ '.' := by
  interval_cases k <;> decide

theorem decimalDigits_dot_single (a : String) (c : Char) (hc : c ≠ '.') :
    decimalDigits (a ++ "." ++ String.mk [c]) = 1 := by
  have hdot : ("." : String).data = ['.'] := rfl
  have hmk : (String.mk [c]).data = [c] := rfl
  unfold decimalDigits
  rw [String.data_append, String.data_append, hdot, hmk]
  simp [List.takeWhile_cons, hc]

theorem decimalDigits_formatRate1 (q : ℚ) : decimalDigits (formatRate1 q) = 1 := by
  have h10 : (round (q * 10)).natAbs % 10 < 10 := Nat.mod_lt _ (by norm_num)
  exact decimalDigits_dot_single _ _ (digitChar_ne_dot h10)

/-- C3: `analysis_rate` equals `total_analyses / total_images * 100` exactly
when `total_images > 0` and is `0` otherwise; `analysis_rate 0 0 = 0`;
`analysis_rate 50 200 = 25`; the `{"total_images": "Error",
"total_analyses": 5}` payload normalizes to images 0, analyses 5 and a
guarded rate of 0 rather than a division by zero; and the `:.1f` rendering
always shows exactly one digit after the decimal point. -/
theorem analysis_rate_correct (a i : Int) :
    (0 < i → analysis_rate a i = (a : ℚ) / (i : ℚ) * 100) ∧
    (¬ 0 < i → analysis_rate a i = 0) ∧
    analysis_rate 0 0 = 0 ∧
    analysis_rate 50 200 = 25 ∧
    safe_get_int [("total_images", JVal.jstr "Error"), ("total_analyses", JVal.jint 5)]
      "total_images" 0 = 0 ∧
    safe_get_int [("total_images", JVal.jstr "Error"), ("total_analyses", JVal.jint 5)]
      "total_analyses" 0 = 5 ∧
    analysis_rate
      (safe_get_int [("total_images", JVal.jstr "Error"), ("total_analyses", JVal.jint 5)]
        "total_analyses" 0)
      (safe_get_int [("total_images", JVal.jstr "Error"), ("total_analyses", JVal.jint 5)]
        "total_images" 0) = 0 ∧
    ∀ q : ℚ, decimalDigits (formatRate1 q) = 1 := by
  refine ⟨fun h => by simp [analysis_rate, h], fun h => by simp [analysis_rate, h],
    by simp [analysis_rate], by norm_num [analysis_rate], rfl, rfl, ?_,
    decimalDigits_formatRate1⟩
  rfl

/-- C3 witness: the general guard applied at the concrete inputs 50 and 200. -/
theorem analysis_rate_correct_witness :
    analysis_rate 50 200 = (50 : ℚ) / (200 : ℚ) * 100 ∧ analysis_rate 5 0 = 0 :=
  ⟨(analysis_rate_correct 50 200).1 (by norm_num),
    (analysis_rate_correct 5 0).2.1 (by norm_num)⟩

/-- C2 counterexample: with the key absent and the numeric-string default
`"5"`, `safe_get` does not return the default: the absent-key lookup makes
`val` the default itself, which then passes through `int(val)` and comes
back as the integer 5. -/
theorem safe_get_default_counterexample :
    safe_get [] "k" (JVal.jstr "5") = JVal.jint 5 ∧
      JVal.jint 5 ≠ JVal.jstr "5" :=
  ⟨rfl, fun h => JVal.noConfusion h⟩

/-- C2 amended: for a present value, `safe_get` returns the default when the
value is null, the literal `"Error"`, or not coercible to an integer, and
the coerced integer when it is coercible; when the key is absent the default
itself is fed through the same pipeline, so an integer default or a
non-coercible default (such as `"N/A"`) is returned unchanged, while a
coercible non-integer default (such as `"5"`) is returned coerced. -/
theorem safe_get_amended (data : List (String × JVal)) (key : String) :
    (∀ n : Int, dictGet data key = none →
      safe_get data key (JVal.jint n) = JVal.jint n) ∧
    (∀ d : JVal, dictGet data key = none → coerceInt d = none →
      safe_get data key d = d) ∧
    (∀ d : JVal, dictGet data key = some JVal.null → safe_get data key d = d) ∧
    (∀ d : JVal, dictGet data key = some (JVal.jstr "Error") →
      safe_get data key d = d) ∧
    (∀ d v : JVal, dictGet data key = some v → isNullVal v = false →
      isErrorSentinel v = false → coerceInt v = none → safe_get data key d = d) ∧
    (∀ (d v : JVal) (n : Int), dictGet data key = some v → isNullVal v = false →
      isErrorSentinel v = false → coerceInt v = some n →
      safe_get data key d = JVal.jint n) := by
  refine ⟨fun n h => by simp [safe_get, h, isErrorSentinel, isNullVal, coerceInt],
    fun d h hc => ?_, fun d h => by simp [safe_get, h, isNullVal],
    fun d h => by simp [safe_get, h, isErrorSentinel],
    fun d v h hn he hc => by simp [safe_get, h, hn, he, hc],
    fun d v n h hn he hc => by simp [safe_get, h, hn, he, hc]⟩
  cases d <;> simp_all [safe_get, isErrorSentinel, isNullVal, coerceInt]

/-- C2 witness: the amended behavior at concrete inputs — a present numeric
string is coerced, a present `"Error"` yields the default, an absent key
with the non-coercible default `"N/A"` yields that default. -/
theorem safe_get_amended_witness :
    safe_get [("a", JVal.jstr "12")] "a" (JVal.jint 0) = JVal.jint 12 ∧
    safe_get [("a", JVal.jstr "Error")] "a" (JVal.jint 7) = JVal.jint 7 ∧
    safe_get [] "total_users" (JVal.jstr "N/A") = JVal.jstr "N/A" :=
  ⟨(safe_get_amended [("a", JVal.jstr "12")] "a").2.2.2.2.2 (JVal.jint 0)
      (JVal.jstr "12") 12 rfl rfl rfl rfl,
    (safe_get_amended [("a", JVal.jstr "Error")] "a").2.2.2.1 (JVal.jint 7) rfl,
    (safe_get_amended [] "total_users").2.1 (JVal.jstr "N/A") rfl rfl⟩

theorem dictGet_setItem_self (item : List (String × JVal)) (key : String) (v : JVal) :
    dictGet (setItem item key v) key = some v := by
  induction item with
  | nil => simp [setItem, dictGet]
  | cons p rest ih =>
    obtain ⟨k, w⟩ := p
    by_cases h : k = key
    · simp [setItem, dictGet, h]
    · simp [setItem, dictGet, h, ih]

theorem relabelItem_ok (label : String) (item : List (String × JVal))
    (h : (dictGet item "_id").isSome) :
    relabelItem label item = Except.ok (relabelPure label item) := by
  unfold relabelItem relabelPure getItem
  cases hv : dictGet item "_id" with
  | none => rw [hv] at h; cases h
  | some v => by_cases hn : isNullVal v = true <;> simp [hn]

theorem relabelPure_id_not_null (label : String) (item : List (String × JVal))
    (h : (dictGet item "_id").isSome) :
    dictGet (relabelPure label item) "_id" ≠ some JVal.null := by
  unfold relabelPure
  cases hv : dictGet item "_id" with
  | none => rw [hv] at h; cases h
  | some v =>
    by_cases hn : isNullVal v = true
    · simp [hn, dictGet_setItem_self]
    · simp only [hn]
      cases v <;> simp_all [isNullVal]

theorem relabelDist_ok (label : String) (dist : List (List (String × JVal)))
    (h : ∀ item ∈ dist, (dictGet item "_id").isSome) :
    relabelDist label dist = Except.ok (dist.map (relabelPure label)) := by
  induction dist with
  | nil => rfl
  | cons item rest ih =>
    have h1 := h item (by simp)
    have h2 : ∀ it ∈ rest, (dictGet it "_id").isSome :=
      fun it hit => h it (by simp [hit])
    simp [relabelDist, relabelItem_ok label item h1, ih h2]

theorem relabelDist_ok_iff (label : String) (dist : List (List (String × JVal))) :
    (∃ out, relabelDist label dist = Except.ok out) ↔
      ∀ item ∈ dist, (dictGet item "_id").isSome := by
  induction dist with
  | nil => simp [relabelDist]
  | cons item rest ih =>
    constructor
    · rintro ⟨out, hout⟩
      unfold relabelDist at hout
      cases hri : relabelItem label item with
      | error e => rw [hri] at hout; cases hout
      | ok item2 =>
        rw [hri] at hout
        cases hrd : relabelDist label rest with
        | error e => rw [hrd] at hout; cases hout
        | ok rest2 =>
          have hkey : (dictGet item "_id").isSome := by
            unfold relabelItem getItem at hri
            cases hv : dictGet item "_id" with
            | none => rw [hv] at hri; cases hri
            | some v => simp
          intro it hit
          rcases List.mem_cons.mp hit with rfl | h2
          · exact hkey
          · exact (ih.mp ⟨rest2, hrd⟩) it h2
    · intro hall
      exact ⟨_, relabelDist_ok label (item :: rest) hall⟩

/-- C4: on a distribution list whose entries all carry the `_id` key, the
relabel loop succeeds, keeps every entry (same length, pointwise image),
rewrites every null `_id` to the context label, and leaves no null `_id`
in the list handed to the chart.  The two instances in the code are
`label = "Not Specified"` (body part) and `label = "Unknown"` (risk). -/
theorem relabel_correct (label : String) (dist : List (List (String × JVal)))
    (h : ∀ item ∈ dist, (dictGet item "_id").isSome) :
    relabelDist label dist = Except.ok (dist.map (relabelPure label)) ∧
    (dist.map (relabelPure label)).length = dist.length ∧
    (∀ item ∈ dist.map (relabelPure label), dictGet item "_id" ≠ some JVal.null) ∧
    (∀ item ∈ dist, dictGet item "_id" = some JVal.null →
      dictGet (relabelPure label item) "_id" = some (JVal.jstr label)) := by
  refine ⟨relabelDist_ok label dist h, List.length_map _ _, ?_, ?_⟩
  · intro item hmem
    rw [List.mem_map] at hmem
    obtain ⟨it, hit, rfl⟩ := hmem
    exact relabelPure_id_not_null label it (h it hit)
  · intro item _ hnull
    unfold relabelPure
    rw [hnull]
    simp [isNullVal, dictGet_setItem_self]

/-- C4 witness: both relabel loops run on concrete lists containing a null
`_id` and a labelled `_id`; the null is rewritten, nothing is dropped. -/
theorem relabel_correct_witness :
    relabelDist "Not Specified"
        [[("_id", JVal.null), ("count", JVal.jint 3)],
         [("_id", JVal.jstr "arm"), ("count", JVal.jint 2)]]
      = Except.ok
        [[("_id", JVal.jstr "Not Specified"), ("count", JVal.jint 3)],
         [("_id", JVal.jstr "arm"), ("count", JVal.jint 2)]] ∧
    relabelDist "Unknown" [[("_id", JVal.null), ("count", JVal.jint 1)]]
      = Except.ok [[("_id", JVal.jstr "Unknown"), ("count", JVal.jint 1)]] := by
  have h1 := (relabel_correct "Not Specified"
    [[("_id", JVal.null), ("count", JVal.jint 3)],
     [("_id", JVal.jstr "arm"), ("count", JVal.jint 2)]] (by decide)).1
  have h2 := (relabel_correct "Unknown"
    [[("_id", JVal.null), ("count", JVal.jint 1)]] (by decide)).1
  exact ⟨h1, h2⟩

/-- C5 counterexample: a distribution entry without the `_id` key makes the
relabel loop raise `KeyError` (`item["_id"]` at line 200); the normalizer
does not return a default-filled result for that payload. -/
theorem normalize_missing_id_counterexample :
    relabelDist "Not Specified" [[("count", JVal.jint 3)]]
      = Except.error "KeyError" := rfl

/-- C5 amended: the top-level numeric normalization (`safe_get`) is total —
it returns the default or an integer for every mapping, key and default,
raising on nothing — but the distribution relabel loop succeeds exactly
when every entry carries the `_id` key; an entry without it raises a
`KeyError`, which the chart-level `try` turns into a warning instead of a
default-filled result. -/
theorem normalizer_safety_amended (data : List (String × JVal)) (key : String)
    (d : JVal) (label : String) (dist : List (List (String × JVal))) :
    (safe_get data key d = d ∨ ∃ n : Int, safe_get data key d = JVal.jint n) ∧
    ((∃ out, relabelDist label dist = Except.ok out) ↔
      ∀ item ∈ dist, (dictGet item "_id").isSome) := by
  refine ⟨?_, relabelDist_ok_iff label dist⟩
  unfold safe_get
  by_cases hg : (isErrorSentinel ((dictGet data key).getD d)
      || isNullVal ((dictGet data key).getD d)) = true
  · simp [hg]
  · rw [if_neg (by simp_all)]
    cases hc : coerceInt ((dictGet data key).getD d) with
    | none => simp
    | some n => exact Or.inr ⟨n, rfl⟩

/-- C5 witness: the amended statement at a concrete mapping and a concrete
well-formed distribution list. -/
theorem normalizer_safety_amended_witness :
    (safe_get [] "x" JVal.null = JVal.null ∨
      ∃ n : Int, safe_get [] "x" JVal.null = JVal.jint n) ∧
    (∃ out, relabelDist "Unknown" [[("_id", JVal.null)]] = Except.ok out) :=
  ⟨(normalizer_safety_amended [] "x" JVal.null "Unknown" [[("_id", JVal.null)]]).1,
    (normalizer_safety_amended [] "x" JVal.null "Unknown"
      [[("_id", JVal.null)]]).2.mpr (by decide)⟩

/-- C6 counterexample: the stats endpoint answers 200 with a decodable,
truthy payload, but the activity call raises a timeout; because both calls
live in one `try` block and the stats response is only processed after the
activity call, `stats` stays `None` and the successfully obtained stats
data is not rendered. -/
theorem fetch_partial_counterexample :
    truthy (JVal.jobj [("total_users", JVal.jint 3)]) = true ∧
    (fetchBlock
        (HttpResult.resp 200 (some (JVal.jobj [("total_users", JVal.jint 3)])) "raw")
        (HttpResult.exn "Error: Request timed out connecting to the server.")).stats
      = none ∧
    renderData (fetchBlock
        (HttpResult.resp 200 (some (JVal.jobj [("total_users", JVal.jint 3)])) "raw")
        (HttpResult.exn "Error: Request timed out connecting to the server.")).stats
      = false :=
  ⟨rfl, rfl, rfl⟩

/-- C6 amended: when both HTTP calls complete without raising, each
endpoint's stored data depends only on its own response, so a non-200
status or an undecodable body on one side never blocks the other side's
decoded 200 payload from being stored and rendered; but a transport
exception (timeout/network) in either call aborts the shared `try` block
and leaves both payloads unset. -/
theorem fetch_partial_amended (ss sa : Nat) (sb ab : Option JVal)
    (stext atext : String) :
    (fetchBlock (HttpResult.resp ss sb stext) (HttpResult.resp sa ab atext)).stats
        = (processStats ss sb stext).1 ∧
    (fetchBlock (HttpResult.resp ss sb stext) (HttpResult.resp sa ab atext)).activity
        = (processActivity sa ab atext).1 ∧
    (∀ j, ss = 200 → sb = some j →
      (fetchBlock (HttpResult.resp ss sb stext) (HttpResult.resp sa ab atext)).stats
        = some j) ∧
    (∀ j, sa = 200 → ab = some j →
      (fetchBlock (HttpResult.resp ss sb stext) (HttpResult.resp sa ab atext)).activity
        = some j) ∧
    (∀ m, (fetchBlock (HttpResult.resp ss sb stext) (HttpResult.exn m)).stats = none ∧
      (fetchBlock (HttpResult.resp ss sb stext) (HttpResult.exn m)).activity = none) ∧
    (∀ m, (fetchBlock (HttpResult.exn m) (HttpResult.resp sa ab atext)).stats = none ∧
      (fetchBlock (HttpResult.exn m) (HttpResult.resp sa ab atext)).activity = none) := by
  refine ⟨rfl, rfl, ?_, ?_, fun m => ⟨rfl, rfl⟩, fun m => ⟨rfl, rfl⟩⟩
  · rintro j rfl rfl
    simp [fetchBlock, processStats]
  · rintro j rfl rfl
    simp [fetchBlock, processActivity]

/-- C6 witness: the amended independence at concrete responses — a 500 on
stats does not block the activity payload, a 503 on activity does not
block the stats payload. -/
theorem fetch_partial_amended_witness :
    (fetchBlock (HttpResult.resp 500 none "boom")
        (HttpResult.resp 200 (some (JVal.jobj [("daily_uploads", JVal.jarr [])])) "ok")).activity
      = some (JVal.jobj [("daily_uploads", JVal.jarr [])]) ∧
    (fetchBlock (HttpResult.resp 200 (some (JVal.jobj [("total_users", JVal.jint 1)])) "ok")
        (HttpResult.resp 503 none "down")).stats
      = some (JVal.jobj [("total_users", JVal.jint 1)]) :=
  ⟨(fetch_partial_amended 500 200 none (some (JVal.jobj [("daily_uploads", JVal.jarr [])]))
      "boom" "ok").2.2.2.1 _ rfl rfl,
    (fetch_partial_amended 200 503 (some (JVal.jobj [("total_users", JVal.jint 1)])) none
      "ok" "down").2.2.1 _ rfl rfl⟩

/-- C7: a 200 response whose body cannot be decoded as JSON leaves that
endpoint's data as the explicit `None` marker (not a default-filled
snapshot), records a user-visible message embedding the raw response body,
and the other endpoint is still processed exactly as its own response
dictates. -/
theorem decode_failure_unavailable (ss sa : Nat) (sb ab : Option JVal)
    (stext atext : String) :
    ((fetchBlock (HttpResult.resp 200 none stext) (HttpResult.resp sa ab atext)).stats
        = none ∧
      (fetchBlock (HttpResult.resp 200 none stext) (HttpResult.resp sa ab atext)).activity
        = (processActivity sa ab atext).1 ∧
      (∃ e, ∃ pre post : List Char,
        (fetchBlock (HttpResult.resp 200 none stext)
          (HttpResult.resp sa ab atext)).error_message = some e ∧
        e.data = pre ++ stext.data ++ post)) ∧
    ((fetchBlock (HttpResult.resp ss sb stext) (HttpResult.resp 200 none atext)).activity
        = none ∧
      (fetchBlock (HttpResult.resp ss sb stext) (HttpResult.resp 200 none atext)).stats
        = (processStats ss sb stext).1 ∧
      (∃ e, ∃ pre post : List Char,
        (fetchBlock (HttpResult.resp ss sb stext)
          (HttpResult.resp 200 none atext)).error_message = some e ∧
        e.data = pre ++ atext.data ++ post)) := by
  constructor
  · refine ⟨rfl, rfl, ?_⟩
    show ∃ e, ∃ pre post : List Char,
      combineErrors (some ("Failed to parse statistics JSON response\nRaw response: "
        ++ stext)) (processActivity sa ab atext).2 = some e ∧
      e.data = pre ++ stext.data ++ post
    cases hpa : (processActivity sa ab atext).2 with
    | none =>
      refine ⟨_, ("Failed to parse statistics JSON response\nRaw response: " : String).data,
        [], rfl, ?_⟩
      simp [String.data_append]
    | some e2 =>
      refine ⟨_, ("Failed to parse statistics JSON response\nRaw response: " : String).data,
        ("\n" ++ e2).data, rfl, ?_⟩
      simp [String.data_append, List.append_assoc]
  · refine ⟨rfl, rfl, ?_⟩
    show ∃ e, ∃ pre post : List Char,
      combineErrors (processStats ss sb stext).2
        (some ("Failed to parse activity JSON response\nRaw response: " ++ atext))
        = some e ∧
      e.data = pre ++ atext.data ++ post
    cases hps : (processStats ss sb stext).2 with
    | none =>
      refine ⟨_, ("Failed to parse activity JSON response\nRaw response: " : String).data,
        [], rfl, ?_⟩
      simp [String.data_append]
    | some e1 =>
      refine ⟨_, (e1 ++ "\n" ++ "Failed to parse activity JSON response\nRaw response: ").data,
        [], rfl, ?_⟩
      simp [String.data_append, List.append_assoc]

/-- C9: when the stats processing and the activity processing both record an
error message in one render pass, the page-level message is their
newline-concatenation into a single combined message. -/
theorem errors_concatenated (ss sa : Nat) (sb ab : Option JVal)
    (stext atext : String) (e1 e2 : String)
    (h1 : (processStats ss sb stext).2 = some e1)
    (h2 : (processActivity sa ab atext).2 = some e2) :
    (fetchBlock (HttpResult.resp ss sb stext) (HttpResult.resp sa ab atext)).error_message
      = some (e1 ++ "\n" ++ e2) := by
  show combineErrors (processStats ss sb stext).2 (processActivity sa ab atext).2
    = some (e1 ++ "\n" ++ e2)
  rw [h1, h2]
  rfl

/-- C9 witness: a 500 on stats and a 404 on activity produce the single
concatenated message. -/
theorem errors_concatenated_witness :
    (fetchBlock (HttpResult.resp 500 none "sboom")
        (HttpResult.resp 404 none "aboom")).error_message
      = some ("Error fetching statistics: 500 - sboom\nError fetching activity data: 404 - aboom") :=
  errors_concatenated 500 404 none none "sboom" "aboom"
    "Error fetching statistics: 500 - sboom"
    "Error fetching activity data: 404 - aboom" rfl rfl

/-- C8: the dashboard stops with a validation error (and issues no fetch)
exactly when the user's start date is after the end date; otherwise the
activity query parameter is the inclusive day count
`(end - start).days + 1`, which is `1` when the two dates coincide. -/
theorem processDateRange_correct (s e : PyDate) :
    (dateLt e s → processDateRange s e = none) ∧
    (¬ dateLt e s →
      processDateRange s e = some ((toOrdinal e : Int) - (toOrdinal s : Int) + 1)) ∧
    processDateRange s s = some 1 := by
  refine ⟨fun h => by simp [processDateRange, h], fun h => by simp [processDateRange, h], ?_⟩
  have h : ¬ dateLt s s := by simp [dateLt]
  simp [processDateRange, h]

/-- C8 witness: `2024-03-10 .. 2024-03-01` is rejected; an equal pair is
accepted with a one-day range; `2024-03-01 .. 2024-03-10` gives ten days. -/
theorem processDateRange_correct_witness :
    processDateRange ⟨2024, 3, 10⟩ ⟨2024, 3, 1⟩ = none ∧
    processDateRange ⟨2024, 3, 1⟩ ⟨2024, 3, 1⟩ = some 1 ∧
    processDateRange ⟨2024, 3, 1⟩ ⟨2024, 3, 10⟩ = some 10 :=
  ⟨(processDateRange_correct ⟨2024, 3, 10⟩ ⟨2024, 3, 1⟩).1 (by decide),
    (processDateRange_correct ⟨2024, 3, 1⟩ ⟨2024, 3, 1⟩).2.2,
    by have := (processDateRange_correct ⟨2024, 3, 1⟩ ⟨2024, 3, 10⟩).2.1 (by decide)
       rw [this]; rfl⟩

theorem lookupKey_eq_none_iff (l : List (Int × Int)) (d : Int) :
    lookupKey l d = none ↔ d ∉ l.map Prod.fst := by
  induction l with
  | nil => simp [lookupKey]
  | cons p rest ih =>
    obtain ⟨k, v⟩ := p
    by_cases h : k = d
    · subst h
      simp [lookupKey]
    · simp only [lookupKey, if_neg h, List.map_cons, List.mem_cons, ih]
      constructor
      · rintro hnot (rfl | hmem)
        · exact h rfl
        · exact hnot hmem
      · intro hnot hmem
        exact hnot (Or.inr hmem)

theorem lookupKey_of_mem_nodup (l : List (Int × Int))
    (hl : (l.map Prod.fst).Nodup) (p : Int × Int) (hp : p ∈ l) :
    lookupKey l p.1 = some p.2 := by
  induction l with
  | nil => cases hp
  | cons q rest ih =>
    obtain ⟨k, w⟩ := q
    rw [List.map_cons, List.nodup_cons] at hl
    rcases List.mem_cons.mp hp with rfl | h2
    · simp [lookupKey]
    · have hk : k ≠ p.1 := by
        intro hkp
        exact hl.1 (hkp ▸ List.mem_map.mpr ⟨p, h2, rfl⟩)
      rw [lookupKey, if_neg hk]
      exact ih hl.2 h2

theorem filter_key_eq_of_nodup (r : List (Int × Int))
    (hr : (r.map Prod.fst).Nodup) (d : Int) :
    r.filter (fun q => q.1 = d) = ((lookupKey r d).map (fun v => (d, v))).toList := by
  induction r with
  | nil => rfl
  | cons q rest ih =>
    obtain ⟨k, w⟩ := q
    rw [List.map_cons, List.nodup_cons] at hr
    by_cases hk : k = d
    · subst hk
      have hnone : lookupKey rest k = none := (lookupKey_eq_none_iff rest k).mpr hr.1
      have hfil : rest.filter (fun q => q.1 = k) = [] := by
        rw [ih hr.2, hnone]
        rfl
      simp [List.filter_cons, lookupKey, hfil]
    · simp [List.filter_cons, lookupKey, hk, ih hr.2]

theorem leftJoinRows_eq (l r : List (Int × Int)) (hr : (r.map Prod.fst).Nodup) :
    leftJoinRows l r = l.map (fun p => (p.1, some p.2, lookupKey r p.1)) := by
  induction l with
  | nil => rfl
  | cons p rest ih =>
    simp only [leftJoinRows]
    rw [filter_key_eq_of_nodup r hr p.1]
    cases hv : lookupKey r p.1 with
    | none => simp [hv, ih]
    | some v => simp [hv, ih]

theorem sortRows_perm (rows : List (Int × Int × Int)) : (sortRows rows).Perm rows :=
  List.perm_insertionSort rowLe rows

theorem sortRows_pairwise_lt (rows : List (Int × Int × Int))
    (hn : (rows.map Prod.fst).Nodup) :
    (sortRows rows).Pairwise (fun x y => x.1 < y.1) := by
  have hs : (sortRows rows).Pairwise rowLe := List.sorted_insertionSort rowLe rows
  have hn2 : ((sortRows rows).map Prod.fst).Nodup :=
    ((sortRows_perm rows).map Prod.fst).nodup_iff.mpr hn
  have hne : (sortRows rows).Pairwise (fun x y => x.1 ≠ y.1) :=
    List.pairwise_map.mp hn2
  exact (hs.and hne).imp fun h => lt_of_le_of_ne h.1 h.2

theorem mergedBothPre_keys (l r : List (Int × Int)) :
    (mergedBothPre l r).map Prod.fst =
      l.map Prod.fst ++
        (r.filter (fun q => lookupKey l q.1 = none)).map Prod.fst := by
  unfold mergedBothPre
  rw [List.map_append, List.map_map, List.map_map]
  rfl

theorem mergedBothPre_mem_keys (l r : List (Int × Int)) (d : Int) :
    d ∈ (mergedBothPre l r).map Prod.fst ↔
      d ∈ l.map Prod.fst ∨ d ∈ r.map Prod.fst := by
  rw [mergedBothPre_keys, List.mem_append]
  constructor
  · rintro (h | h)
    · exact Or.inl h
    · right
      rw [List.mem_map] at h ⊢
      obtain ⟨q, hq, rfl⟩ := h
      exact ⟨q, (List.mem_filter.mp hq).1, rfl⟩
  · rintro (h | h)
    · exact Or.inl h
    · by_cases hl2 : d ∈ l.map Prod.fst
      · exact Or.inl hl2
      · right
        rw [List.mem_map] at h ⊢
        obtain ⟨q, hq, rfl⟩ := h
        refine ⟨q, List.mem_filter.mpr ⟨hq, ?_⟩, rfl⟩
        simp [lookupKey_eq_none_iff, hl2]

theorem mergedBothPre_nodup_keys (l r : List (Int × Int))
    (hl : (l.map Prod.fst).Nodup) (hr : (r.map Prod.fst).Nodup) :
    ((mergedBothPre l r).map Prod.fst).Nodup := by
  rw [mergedBothPre_keys, List.nodup_append]
  refine ⟨hl, List.Nodup.sublist ((List.filter_sublist _).map Prod.fst) hr, ?_⟩
  intro d hdl hdf
  rw [List.mem_map] at hdf
  obtain ⟨q, hq, rfl⟩ := hdf
  rw [List.mem_filter] at hq
  have hnone : lookupKey l q.1 = none := by simpa using hq.2
  rw [lookupKey_eq_none_iff] at hnone
  exact hnone hdl

theorem mergedBothPre_values (l r : List (Int × Int))
    (hl : (l.map Prod.fst).Nodup) (hr : (r.map Prod.fst).Nodup) :
    ∀ row ∈ mergedBothPre l r,
      row.2.1 = (lookupKey l row.1).getD 0 ∧
      row.2.2 = (lookupKey r row.1).getD 0 := by
  intro row hrow
  rw [mergedBothPre, List.mem_append] at hrow
  rcases hrow with h | h
  · rw [List.mem_map] at h
    obtain ⟨p, hp, rfl⟩ := h
    exact ⟨by simp [lookupKey_of_mem_nodup l hl p hp], rfl⟩
  · rw [List.mem_map] at h
    obtain ⟨q, hq, rfl⟩ := h
    rw [List.mem_filter] at hq
    have hnone : lookupKey l q.1 = none := by simpa using hq.2
    exact ⟨by simp [hnone], by simp [lookupKey_of_mem_nodup r hr q hq.1]⟩

theorem outerRows_fill_eq (l r : List (Int × Int))
    (hr : (r.map Prod.fst).Nodup) :
    (outerRows l r).map fillRow = mergedBothPre l r := by
  unfold outerRows rightOnlyRows mergedBothPre
  rw [List.map_append, leftJoinRows_eq l r hr, List.map_map, List.map_map]
  rfl

/-- C1: under the daily-series invariant (each input series has at most one
row per date), the merged activity rows are strictly ascending in calendar
date — hence exactly one output row per date — a date appears in the output
exactly when it appears in either input (union of keys, not intersection),
every row carries each source's count with 0 for a date absent from that
source, `merge [] [] = []`, and merging with one empty input gives exactly
the other input's rows (up to the ascending sort) with the missing count 0.
The first three properties determine the output uniquely, so it is the same
regardless of the order of the input rows. -/
theorem merge_union_correct (ups anas : List (Int × Int))
    (hu : (ups.map Prod.fst).Nodup) (ha : (anas.map Prod.fst).Nodup) :
    (mergedRows ups anas).Pairwise (fun x y => x.1 < y.1) ∧
    (∀ d : Int, d ∈ (mergedRows ups anas).map Prod.fst ↔
      d ∈ ups.map Prod.fst ∨ d ∈ anas.map Prod.fst) ∧
    (∀ row ∈ mergedRows ups anas,
      row.2.1 = (lookupKey ups row.1).getD 0 ∧
      row.2.2 = (lookupKey anas row.1).getD 0) ∧
    mergedRows [] [] = [] ∧
    (mergedRows ups []).Perm (ups.map fun p => (p.1, p.2, 0)) ∧
    (mergedRows [] anas).Perm (anas.map fun p => (p.1, 0, p.2)) := by
  have permU : (mergedRows ups []).Perm (ups.map fun p => (p.1, p.2, 0)) := by
    by_cases hU : ups = []
    · subst hU
      exact List.Perm.nil
    · have hEq : mergedRows ups [] = sortRows (ups.map fun p => (p.1, p.2, 0)) := by
        simp [mergedRows, hU]
      rw [hEq]
      exact sortRows_perm _
  have permA : (mergedRows [] anas).Perm (anas.map fun p => (p.1, 0, p.2)) := by
    by_cases hA : anas = []
    · subst hA
      exact List.Perm.nil
    · have hEq : mergedRows [] anas = sortRows (anas.map fun p => (p.1, 0, p.2)) := by
        simp [mergedRows, hA]
      rw [hEq]
      exact sortRows_perm _
  refine ⟨?_, ?_, ?_, rfl, permU, permA⟩ <;>
    by_cases hU : ups = [] <;> by_cases hA : anas = []
  · subst hU; subst hA
    exact List.Pairwise.nil
  · subst hU
    have hEq : mergedRows [] anas = sortRows (anas.map fun p => (p.1, 0, p.2)) := by
      simp [mergedRows, hA]
    have hkeys : ((anas.map fun p => ((p.1 : Int), (0 : Int), p.2)).map Prod.fst)
        = anas.map Prod.fst := by
      rw [List.map_map]
      rfl
    rw [hEq]
    exact sortRows_pairwise_lt _ (by rw [hkeys]; exact ha)
  · subst hA
    have hEq : mergedRows ups [] = sortRows (ups.map fun p => (p.1, p.2, 0)) := by
      simp [mergedRows, hU]
    have hkeys : ((ups.map fun p => ((p.1 : Int), p.2, (0 : Int))).map Prod.fst)
        = ups.map Prod.fst := by
      rw [List.map_map]
      rfl
    rw [hEq]
    exact sortRows_pairwise_lt _ (by rw [hkeys]; exact hu)
  · have hEq : mergedRows ups anas = sortRows ((outerRows ups anas).map fillRow) := by
      simp [mergedRows, hU, hA]
    rw [hEq, outerRows_fill_eq ups anas ha]
    exact sortRows_pairwise_lt _ (mergedBothPre_nodup_keys ups anas hu ha)
  · subst hU; subst hA
    intro d
    simp [mergedRows]
  · subst hU
    have hEq : mergedRows [] anas = sortRows (anas.map fun p => (p.1, 0, p.2)) := by
      simp [mergedRows, hA]
    have hkeys : ((anas.map fun p => ((p.1 : Int), (0 : Int), p.2)).map Prod.fst)
        = anas.map Prod.fst := by
      rw [List.map_map]
      rfl
    intro d
    rw [hEq, ((sortRows_perm _).map Prod.fst).mem_iff, hkeys]
    simp
  · subst hA
    have hEq : mergedRows ups [] = sortRows (ups.map fun p => (p.1, p.2, 0)) := by
      simp [mergedRows, hU]
    have hkeys : ((ups.map fun p => ((p.1 : Int), p.2, (0 : Int))).map Prod.fst)
        = ups.map Prod.fst := by
      rw [List.map_map]
      rfl
    intro d
    rw [hEq, ((sortRows_perm _).map Prod.fst).mem_iff, hkeys]
    simp
  · have hEq : mergedRows ups anas = sortRows ((outerRows ups anas).map fillRow) := by
      simp [mergedRows, hU, hA]
    intro d
    rw [hEq, outerRows_fill_eq ups anas ha,
      ((sortRows_perm _).map Prod.fst).mem_iff]
    exact mergedBothPre_mem_keys ups anas d
  · subst hU; subst hA
    intro row hrow
    simp [mergedRows] at hrow
  · subst hU
    have hEq : mergedRows [] anas = sortRows (anas.map fun p => (p.1, 0, p.2)) := by
      simp [mergedRows, hA]
    intro row hrow
    rw [hEq, (sortRows_perm _).mem_iff, List.mem_map] at hrow
    obtain ⟨p, hp, rfl⟩ := hrow
    exact ⟨rfl, by simp [lookupKey_of_mem_nodup anas ha p hp]⟩
  · subst hA
    have hEq : mergedRows ups [] = sortRows (ups.map fun p => (p.1, p.2, 0)) := by
      simp [mergedRows, hU]
    intro row hrow
    rw [hEq, (sortRows_perm _).mem_iff, List.mem_map] at hrow
    obtain ⟨p, hp, rfl⟩ := hrow
    exact ⟨by simp [lookupKey_of_mem_nodup ups hu p hp], rfl⟩
  · have hEq : mergedRows ups anas = sortRows ((outerRows ups anas).map fillRow) := by
      simp [mergedRows, hU, hA]
    intro row hrow
    rw [hEq, outerRows_fill_eq ups anas ha, (sortRows_perm _).mem_iff] at hrow
    exact mergedBothPre_values ups anas hu ha row hrow

/-- C1 witness: the full statement applied to the unsorted concrete inputs
`uploads = [(2,1),(1,4)]`, `analyses = [(1,7)]`, together with the computed
merged table `[(1,4,7),(2,1,0)]` (union of dates, ascending, defaults 0). -/
theorem merge_union_correct_witness :
    (mergedRows [(2, 1), (1, 4)] [(1, 7)]).Pairwise (fun x y => x.1 < y.1) ∧
    mergedRows [(2, 1), (1, 4)] [(1, 7)] = [(1, 4, 7), (2, 1, 0)] ∧
    mergedRows [] [] = [] :=
  ⟨(merge_union_correct [(2, 1), (1, 4)] [(1, 7)] (by decide) (by decide)).1,
    by decide,
    (merge_union_correct [(2, 1), (1, 4)] [(1, 7)] (by decide) (by decide)).2.2.2.1⟩

/-- C10: with both input series non-empty the merged frame keeps the source
column names `_id`/`uploads`/`analyses` — the rename to
`date`/`Uploads`/`Analyses` happens only in the two branches where exactly
one input series is non-empty — while the chart step adds a trace only for
columns named `Uploads` or `Analyses` (reading dates from a `date` column);
consequently with both series non-empty the rendered chart carries neither
data series, and with exactly one non-empty series it carries both. -/
theorem activity_chart_columns (ups anas : List (Int × Int)) :
    (ups ≠ [] → anas ≠ [] →
      activityCols ups anas = ["_id", "uploads", "analyses"] ∧
      chartTraces (activityCols ups anas) = Except.ok []) ∧
    (ups ≠ [] → anas = [] →
      activityCols ups anas = ["date", "Uploads", "Analyses"] ∧
      chartTraces (activityCols ups anas)
        = Except.ok ["Image Uploads", "Analyses Performed"]) ∧
    (ups = [] → anas ≠ [] →
      activityCols ups anas = ["date", "Analyses", "Uploads"] ∧
      chartTraces (activityCols ups anas)
        = Except.ok ["Image Uploads", "Analyses Performed"]) := by
  refine ⟨fun hu ha => ?_, fun hu ha => ?_, fun hu ha => ?_⟩
  · have hc : activityCols ups anas = ["_id", "uploads", "analyses"] := by
      simp [activityCols, hu, ha]
    exact ⟨hc, by rw [hc]; rfl⟩
  · subst ha
    have hc : activityCols ups [] = ["date", "Uploads", "Analyses"] := by
      simp [activityCols, hu]
    exact ⟨hc, by rw [hc]; rfl⟩
  · subst hu
    have hc : activityCols [] anas = ["date", "Analyses", "Uploads"] := by
      simp [activityCols, ha]
    exact ⟨hc, by rw [hc]; rfl⟩

/-- C10 witness: with both concrete series non-empty the columns stay
`_id`/`uploads`/`analyses` and the chart gets no trace; with only uploads
non-empty the renamed columns yield both traces. -/
theorem activity_chart_columns_witness :
    activityCols [(1, 2)] [(1, 3)] = ["_id", "uploads", "analyses"] ∧
    chartTraces (activityCols [(1, 2)] [(1, 3)]) = Except.ok [] ∧
    activityCols [(1, 2)] [] = ["date", "Uploads", "Analyses"] ∧
    chartTraces (activityCols [(1, 2)] [])
      = Except.ok ["Image Uploads", "Analyses Performed"] :=
  ⟨((activity_chart_columns [(1, 2)] [(1, 3)]).1 (by decide) (by decide)).1,
    ((activity_chart_columns [(1, 2)] [(1, 3)]).1 (by decide) (by decide)).2,
    ((activity_chart_columns [(1, 2)] []).2.1 (by decide) rfl).1,
    ((activity_chart_columns [(1, 2)] []).2.1 (by decide) rfl).2⟩
